import Mathlib

/-!
Shallow embedding of `servoscale.c` (wtarreau/servoscale): an RC servo
pulse conditioner.  The file embeds both build variants found in the
source: the AVR `main` loop (namespace `Servoscale.Main`) and the Arduino
sketch `loop` (namespace `Servoscale.Lp`).  Machine integers are modelled
as `Int`/`Nat` with explicit two's-complement wraps where the C types
(`int8_t`, `int16_t`, 16-bit `int`, `uint8_t`, `uint16_t`) can overflow.
C integer division truncates toward zero, so `Int.tdiv` is used.
-/

namespace Servoscale

/-- Two's-complement wrap of an integer into the `int8_t` range [-128, 127]. -/
def wrap8 (x : Int) : Int := (x + 128) % 256 - 128

/-- Two's-complement wrap of an integer into the `int16_t` range [-32768, 32767]. -/
def wrap16 (x : Int) : Int := (x + 32768) % 65536 - 32768

/-- The six driving states of servoscale.c: `enum { CTR, INI, REV, FWD, STP, BRK }`. -/
inductive SState where
  | CTR
  | INI
  | REV
  | FWD
  | STP
  | BRK
deriving DecidableEq, Repr

namespace Main

/-- Pulse margin around center, in microseconds (AVR variant). -/
def MARGIN : Int := 40

/-- Full-throttle detection threshold in microseconds (AVR variant). -/
def FWDFULL : Int := 400

/-- Max burst duration and cancellation delay in iterations (AVR variant). -/
def MAXBURST : Int := 15

/-- Control-loop state of the AVR `main`: `state`, `duration` (`uint8_t`),
`nobst` (`int8_t`), `offset` (`int16_t`), `led` (`uint8_t`, 0 or 1). -/
structure St where
  state : SState
  duration : Nat
  nobst : Int
  offset : Int
  led : Bool
deriving DecidableEq, Repr

/-- Initial values of the globals at boot: `state = CTR`, `duration = 0`,
`led = 1`, `nobst = 0`, `offset = 0`. -/
def boot : St :=
  { state := SState.CTR, duration := 0, nobst := 0, offset := 0, led := true }

/-- `len = pulse_width(); len -= 1500; if (state != CTR) len += offset;`
with `len` an `int16_t` fed from a `uint16_t` measurement `w`. -/
def corrected (s : St) (w : Int) : Int :=
  let len := wrap16 (wrap16 w - 1500)
  if s.state = SState.CTR then len else wrap16 (len + s.offset)

/-- The first `switch (state)` of the loop body: state-machine update.
`duration` arithmetic is `uint8_t` (the CTR decrement wraps mod 256);
`offset` arithmetic is `int16_t`; `offset /= 10` truncates toward zero. -/
def stateSwitch (s : St) (len : Int) : St :=
  match s.state with
  | SState.CTR =>
    if len < -500 ∨ len > 500 then
      { s with duration := (s.duration + 255) % 256 }
    else
      let off := if 10 ≤ s.duration then
          (if len < 0 then wrap16 (s.offset - len) else wrap16 (s.offset + len))
        else s.offset
      if 20 ≤ s.duration then
        { s with offset := off.tdiv 10, state := SState.INI, duration := 0 }
      else
        { s with offset := off }
  | SState.INI =>
    if MARGIN ≤ len then { s with state := SState.FWD, duration := 0 }
    else if len ≤ -MARGIN then { s with state := SState.REV, duration := 0 }
    else s
  | SState.FWD =>
    if len ≤ -MARGIN then { s with state := SState.BRK, duration := 0 }
    else if -MARGIN < len ∧ len < MARGIN then
      if 4 ≤ s.duration then { s with state := SState.STP, duration := 0 } else s
    else s
  | SState.STP =>
    if MARGIN ≤ len then { s with state := SState.FWD, duration := 0 }
    else if len ≤ -MARGIN then { s with state := SState.BRK, duration := 0 }
    else s
  | SState.BRK =>
    if MARGIN ≤ len then { s with state := SState.FWD, duration := 0 }
    else if -MARGIN < len ∧ len < MARGIN then
      if 4 ≤ s.duration then { s with state := SState.INI, duration := 0 } else s
    else s
  | SState.REV =>
    if MARGIN ≤ len then { s with state := SState.FWD, duration := 0 }
    else if -MARGIN < len ∧ len < MARGIN then
      if 4 ≤ s.duration then { s with state := SState.INI, duration := 0 } else s
    else s

/-- The second `switch (state)` of the loop body: scaling policy.  It runs
on the state already updated by `stateSwitch` and returns the updated
state together with the scaled `len`.  `nobst` arithmetic is `int8_t`;
`len * 2` is 16-bit and may wrap; divisions truncate toward zero. -/
def scaleSwitch (s : St) (len : Int) : St × Int :=
  match s.state with
  | SState.FWD =>
    let nb0 := wrap8 (s.nobst + 1)
    let nb := if MAXBURST ≤ nb0 then 2 * MAXBURST else nb0
    if len < FWDFULL ∨ MAXBURST ≤ nb then
      ({ s with nobst := nb, led := true }, (wrap16 (len * 2)).tdiv 5)
    else
      ({ s with nobst := nb }, len)
  | SState.REV =>
    let nb0 := wrap8 (s.nobst - 1)
    ({ s with nobst := if nb0 < 0 then 0 else nb0, led := true },
     (wrap16 (len * 2)).tdiv 3)
  | SState.CTR =>
    ({ s with led := true }, len)
  | _ =>
    let nb0 := wrap8 (s.nobst - 1)
    ({ s with nobst := if nb0 < 0 then 0 else nb0, led := false }, len)

/-- One full iteration of the AVR control loop on measured width `w`:
`led = 0` after the pulse is read, state-machine switch, scaling switch,
re-centering `len += 1500` for emission, and the final saturating
`if (duration < 255) duration++`.  Returns the new state and the width
passed to `send_pulse`. -/
def step (s : St) (w : Int) : St × Int :=
  let len := corrected s w
  let s1 := stateSwitch s len
  let p := scaleSwitch { s1 with led := false } len
  let out := wrap16 (p.2 + 1500)
  ({ p.1 with duration := if p.1.duration < 255 then p.1.duration + 1 else p.1.duration },
   out)

/-- Iterated control loop over a list of measured pulse widths. -/
def run (s : St) (ws : List Int) : St :=
  ws.foldl (fun st w => (step st w).1) s

/-- The emitted pulse widths along a run. -/
def outs (s : St) (ws : List Int) : List Int :=
  match ws with
  | [] => []
  | w :: rest => (step s w).2 :: outs (step s w).1 rest

/-- CPU frequency of the AVR build (Makefile: `F_CPU := 8000000`). -/
def F_CPU : Nat := 8000000

/-- The loop-count computation of `send_pulse`:
`width = width * (F_CPU / 1000000) / 4 + 1;` in `uint16_t` arithmetic. -/
def send_pulse_count (width : Nat) : Nat :=
  (width % 65536 * (F_CPU / 1000000) % 65536 / 4 + 1) % 65536

/-- Continuation of the pre-decrement busy-wait of `send_pulse` from a
value already known nonzero after the first decrement: each step is one
further decrement of `width`, down to zero (no further wrap can occur
below 65536). Returns the number of decrements performed. -/
def busyTail : Nat → Nat
  | 0 => 0
  | n + 1 => busyTail n + 1

/-- Total number of `--width` decrements executed by `while (--width);`
starting from the `uint16_t` value `w`: the first decrement wraps mod
2^16 (so `w = 0` yields 65535 and the loop runs on), then the loop
counts the remaining value down to zero. -/
def busyIters (w : Nat) : Nat :=
  busyTail ((w + 65535) % 65536) + 1

/-- `send_pulse`: number of busy-wait decrements performed for a requested
width, i.e. the observable length of the emitted high pulse in units of
the 4-cycle loop quantum. -/
def send_pulse_iters (width : Nat) : Nat :=
  busyIters (send_pulse_count width)

/-- The burst-counter update of the Forward arm of the scaling switch taken
in isolation: `if (++nobst >= MAXBURST) nobst = 2 * MAXBURST;` with the
`int8_t` increment. -/
def fwdBurst (n : Int) : Int :=
  if MAXBURST ≤ wrap8 (n + 1) then 2 * MAXBURST else wrap8 (n + 1)

end Main

/- The Arduino sketch variant (`loop()` in the second half of the file):
`int` is 16 bits on AVR, so `duration`, `nobst`, `offset` and `len` are
all `int16_t`-sized. -/
namespace Lp

/-- Pulse margin around center, in microseconds (sketch variant). -/
def MARGIN : Int := 40

/-- Full-throttle detection threshold in microseconds (sketch variant). -/
def FWDFULL : Int := 300

/-- Max burst duration and cancellation delay in iterations (sketch variant). -/
def MAXBURST : Int := 20

/-- Control-loop state of the sketch: `state` plus the three `int` globals. -/
structure St where
  state : SState
  duration : Int
  nobst : Int
  offset : Int
deriving DecidableEq, Repr

/-- Initial values of the globals: `state = CTR`, `duration = nobst = offset = 0`. -/
def boot : St :=
  { state := SState.CTR, duration := 0, nobst := 0, offset := 0 }

/-- `len = pulseIn(...); len -= 1500; if (state != CTR) len += offset;`
with `len` a 16-bit `int` fed from measurement `w`. -/
def corrected (s : St) (w : Int) : Int :=
  let len := wrap16 (wrap16 w - 1500)
  if s.state = SState.CTR then len else wrap16 (len + s.offset)

/-- The first `switch (state)` of `loop()`.  Identical to the AVR variant
except that the Centering capture window is ±1500 µs and `duration` is a
16-bit `int` (the decrement simply goes through 16-bit wrap). -/
def stateSwitch (s : St) (len : Int) : St :=
  match s.state with
  | SState.CTR =>
    if len < -1500 ∨ len > 1500 then
      { s with duration := wrap16 (s.duration - 1) }
    else
      let off := if 10 ≤ s.duration then
          (if len < 0 then wrap16 (s.offset - len) else wrap16 (s.offset + len))
        else s.offset
      if 20 ≤ s.duration then
        { s with offset := off.tdiv 10, state := SState.INI, duration := 0 }
      else
        { s with offset := off }
  | SState.INI =>
    if MARGIN ≤ len then { s with state := SState.FWD, duration := 0 }
    else if len ≤ -MARGIN then { s with state := SState.REV, duration := 0 }
    else s
  | SState.FWD =>
    if len ≤ -MARGIN then { s with state := SState.BRK, duration := 0 }
    else if -MARGIN < len ∧ len < MARGIN then
      if 4 ≤ s.duration then { s with state := SState.STP, duration := 0 } else s
    else s
  | SState.STP =>
    if MARGIN ≤ len then { s with state := SState.FWD, duration := 0 }
    else if len ≤ -MARGIN then { s with state := SState.BRK, duration := 0 }
    else s
  | SState.BRK =>
    if MARGIN ≤ len then { s with state := SState.FWD, duration := 0 }
    else if -MARGIN < len ∧ len < MARGIN then
      if 4 ≤ s.duration then { s with state := SState.INI, duration := 0 } else s
    else s
  | SState.REV =>
    if MARGIN ≤ len then { s with state := SState.FWD, duration := 0 }
    else if -MARGIN < len ∧ len < MARGIN then
      if 4 ≤ s.duration then { s with state := SState.INI, duration := 0 } else s
    else s

/-- The second `switch (state)` of `loop()`: the backward scaling here is
`len * 2 / 4`, and the `default` arm (which decrements `nobst`) also
covers `CTR` since the sketch has no dedicated `CTR` arm. -/
def scaleSwitch (s : St) (len : Int) : St × Int :=
  match s.state with
  | SState.FWD =>
    let nb0 := wrap16 (s.nobst + 1)
    let nb := if MAXBURST ≤ nb0 then 2 * MAXBURST else nb0
    if len < FWDFULL ∨ MAXBURST ≤ nb then
      ({ s with nobst := nb }, (wrap16 (len * 2)).tdiv 5)
    else
      ({ s with nobst := nb }, len)
  | SState.REV =>
    let nb0 := wrap16 (s.nobst - 1)
    ({ s with nobst := if nb0 < 0 then 0 else nb0 },
     (wrap16 (len * 2)).tdiv 4)
  | _ =>
    let nb0 := wrap16 (s.nobst - 1)
    ({ s with nobst := if nb0 < 0 then 0 else nb0 }, len)

/-- One full iteration of `loop()` on measured width `w`, ending with
`duration++; if (duration > 1000) duration = 1000;`.  Returns the new
state and the emitted width. -/
def step (s : St) (w : Int) : St × Int :=
  let len := corrected s w
  let s1 := stateSwitch s len
  let p := scaleSwitch s1 len
  let out := wrap16 (p.2 + 1500)
  let d := wrap16 (p.1.duration + 1)
  ({ p.1 with duration := if d > 1000 then 1000 else d }, out)

/-- Iterated sketch loop over a list of measured pulse widths. -/
def run (s : St) (ws : List Int) : St :=
  ws.foldl (fun st w => (step st w).1) s

end Lp

/-! ### Helper lemmas -/

lemma wrap8_eq_self (x : Int) (h1 : -128 ≤ x) (h2 : x ≤ 127) : wrap8 x = x := by
  unfold wrap8
  omega

lemma wrap16_eq_self (x : Int) (h1 : -32768 ≤ x) (h2 : x ≤ 32767) : wrap16 x = x := by
  unfold wrap16
  omega

lemma busyTail_eq (n : Nat) : Main.busyTail n = n := by
  induction n with
  | zero => rfl
  | succ k ih => simp [Main.busyTail, ih]

lemma busyIters_val (w : Nat) : Main.busyIters w = (w + 65535) % 65536 + 1 := by
  unfold Main.busyIters
  rw [busyTail_eq]

lemma busyIters_eq (w : Nat) (h1 : 1 ≤ w) (h2 : w ≤ 65535) : Main.busyIters w = w := by
  rw [busyIters_val]
  omega

lemma send_pulse_count_eq (width : Nat) (h : width ≤ 65535) :
    Main.send_pulse_count width = width * 8 % 65536 / 4 + 1 := by
  simp only [Main.send_pulse_count, Main.F_CPU]
  omega

lemma mainSwitch_CTR (s : Main.St) (len : Int) (hs : s.state = SState.CTR) :
    Main.stateSwitch s len =
      if len < -500 ∨ len > 500 then
        { s with duration := (s.duration + 255) % 256 }
      else
        let off := if 10 ≤ s.duration then
            (if len < 0 then wrap16 (s.offset - len) else wrap16 (s.offset + len))
          else s.offset
        if 20 ≤ s.duration then
          { s with offset := off.tdiv 10, state := SState.INI, duration := 0 }
        else
          { s with offset := off } := by
  obtain ⟨st, d, nb, off, ld⟩ := s
  obtain rfl : st = SState.CTR := hs
  rfl

lemma mainSwitch_INI (s : Main.St) (len : Int) (hs : s.state = SState.INI) :
    Main.stateSwitch s len =
      if Main.MARGIN ≤ len then { s with state := SState.FWD, duration := 0 }
      else if len ≤ -Main.MARGIN then { s with state := SState.REV, duration := 0 }
      else s := by
  obtain ⟨st, d, nb, off, ld⟩ := s
  obtain rfl : st = SState.INI := hs
  rfl

lemma mainSwitch_FWD (s : Main.St) (len : Int) (hs : s.state = SState.FWD) :
    Main.stateSwitch s len =
      if len ≤ -Main.MARGIN then { s with state := SState.BRK, duration := 0 }
      else if -Main.MARGIN < len ∧ len < Main.MARGIN then
        if 4 ≤ s.duration then { s with state := SState.STP, duration := 0 } else s
      else s := by
  obtain ⟨st, d, nb, off, ld⟩ := s
  obtain rfl : st = SState.FWD := hs
  rfl

lemma mainSwitch_STP (s : Main.St) (len : Int) (hs : s.state = SState.STP) :
    Main.stateSwitch s len =
      if Main.MARGIN ≤ len then { s with state := SState.FWD, duration := 0 }
      else if len ≤ -Main.MARGIN then { s with state := SState.BRK, duration := 0 }
      else s := by
  obtain ⟨st, d, nb, off, ld⟩ := s
  obtain rfl : st = SState.STP := hs
  rfl

lemma mainSwitch_BRK (s : Main.St) (len : Int) (hs : s.state = SState.BRK) :
    Main.stateSwitch s len =
      if Main.MARGIN ≤ len then { s with state := SState.FWD, duration := 0 }
      else if -Main.MARGIN < len ∧ len < Main.MARGIN then
        if 4 ≤ s.duration then { s with state := SState.INI, duration := 0 } else s
      else s := by
  obtain ⟨st, d, nb, off, ld⟩ := s
  obtain rfl : st = SState.BRK := hs
  rfl

lemma mainSwitch_REV (s : Main.St) (len : Int) (hs : s.state = SState.REV) :
    Main.stateSwitch s len =
      if Main.MARGIN ≤ len then { s with state := SState.FWD, duration := 0 }
      else if -Main.MARGIN < len ∧ len < Main.MARGIN then
        if 4 ≤ s.duration then { s with state := SState.INI, duration := 0 } else s
      else s := by
  obtain ⟨st, d, nb, off, ld⟩ := s
  obtain rfl : st = SState.REV := hs
  rfl

lemma mainScale_FWD (s : Main.St) (len : Int) (hs : s.state = SState.FWD) :
    Main.scaleSwitch s len =
      (if len < Main.FWDFULL ∨ Main.MAXBURST ≤ Main.fwdBurst s.nobst then
         ({ s with nobst := Main.fwdBurst s.nobst, led := true },
          (wrap16 (len * 2)).tdiv 5)
       else
         ({ s with nobst := Main.fwdBurst s.nobst }, len)) := by
  obtain ⟨st, d, nb, off, ld⟩ := s
  obtain rfl : st = SState.FWD := hs
  rfl

lemma mainScale_REV (s : Main.St) (len : Int) (hs : s.state = SState.REV) :
    Main.scaleSwitch s len =
      ({ s with
          nobst := (if wrap8 (s.nobst - 1) < 0 then 0 else wrap8 (s.nobst - 1)),
          led := true },
       (wrap16 (len * 2)).tdiv 3) := by
  obtain ⟨st, d, nb, off, ld⟩ := s
  obtain rfl : st = SState.REV := hs
  rfl

lemma mainScale_CTR (s : Main.St) (len : Int) (hs : s.state = SState.CTR) :
    Main.scaleSwitch s len = ({ s with led := true }, len) := by
  obtain ⟨st, d, nb, off, ld⟩ := s
  obtain rfl : st = SState.CTR := hs
  rfl

lemma mainScale_other (s : Main.St) (len : Int)
    (hs : s.state = SState.INI ∨ s.state = SState.STP ∨ s.state = SState.BRK) :
    Main.scaleSwitch s len =
      ({ s with
          nobst := (if wrap8 (s.nobst - 1) < 0 then 0 else wrap8 (s.nobst - 1)),
          led := false },
       len) := by
  obtain ⟨st, d, nb, off, ld⟩ := s
  rcases hs with h | h | h <;> (obtain rfl := h) <;> rfl

lemma mainScale_state (s : Main.St) (len : Int) :
    (Main.scaleSwitch s len).1.state = s.state := by
  obtain ⟨st, d, nb, off, ld⟩ := s
  cases st <;> simp only [Main.scaleSwitch] <;> first | rfl | (split_ifs <;> rfl)

lemma mainScale_duration (s : Main.St) (len : Int) :
    (Main.scaleSwitch s len).1.duration = s.duration := by
  obtain ⟨st, d, nb, off, ld⟩ := s
  cases st <;> simp only [Main.scaleSwitch] <;> first | rfl | (split_ifs <;> rfl)

lemma mainScale_offset (s : Main.St) (len : Int) :
    (Main.scaleSwitch s len).1.offset = s.offset := by
  obtain ⟨st, d, nb, off, ld⟩ := s
  cases st <;> simp only [Main.scaleSwitch] <;> first | rfl | (split_ifs <;> rfl)

lemma main_step_state (s : Main.St) (w : Int) :
    (Main.step s w).1.state = (Main.stateSwitch s (Main.corrected s w)).state := by
  simp only [Main.step]
  rw [mainScale_state]

lemma main_step_offset (s : Main.St) (w : Int) :
    (Main.step s w).1.offset = (Main.stateSwitch s (Main.corrected s w)).offset := by
  simp only [Main.step]
  rw [mainScale_offset]

lemma main_step_duration (s : Main.St) (w : Int) :
    (Main.step s w).1.duration =
      (if (Main.stateSwitch s (Main.corrected s w)).duration < 255
       then (Main.stateSwitch s (Main.corrected s w)).duration + 1
       else (Main.stateSwitch s (Main.corrected s w)).duration) := by
  simp only [Main.step]
  rw [mainScale_duration]

/-! ### Claim theorems -/

/-- C9: for every requested width, `send_pulse` adds a +1 bias to the busy-wait
loop count, so the count is always at least 1 and at most 16384; the
pre-decrement loop then performs exactly that bounded number of decrements
(no 16-bit wrap of the counter), a requested width of 0 yields the minimal
count 1 and a single-decrement minimal pulse, which is minimal over all
requests; without the bias a zero count would make the loop wrap and run
for 65536 decrements. -/
theorem C9_send_pulse_bias (width : Nat) (h : width ≤ 65535) :
    1 ≤ Main.send_pulse_count width ∧
    Main.send_pulse_count width ≤ 16384 ∧
    Main.send_pulse_iters width = Main.send_pulse_count width ∧
    Main.send_pulse_count 0 = 1 ∧
    Main.send_pulse_iters 0 = 1 ∧
    Main.send_pulse_iters 0 ≤ Main.send_pulse_iters width ∧
    Main.busyIters 0 = 65536 := by
  have hc := send_pulse_count_eq width h
  have h1 : 1 ≤ Main.send_pulse_count width := by omega
  have h2 : Main.send_pulse_count width ≤ 16384 := by omega
  have h3 : Main.send_pulse_iters width = Main.send_pulse_count width := by
    unfold Main.send_pulse_iters
    exact busyIters_eq _ h1 (by omega)
  have h0 : Main.send_pulse_count 0 = 1 := by
    simp only [Main.send_pulse_count, Main.F_CPU]
  have h5 : Main.send_pulse_iters 0 = 1 := by
    unfold Main.send_pulse_iters
    rw [h0, busyIters_eq 1 le_rfl (by norm_num)]
  have h7 : Main.busyIters 0 = 65536 := by
    rw [busyIters_val]
  refine ⟨h1, h2, h3, h0, h5, by omega, h7⟩

/-- Witness for C9 at the concrete requested width 1500. -/
theorem C9_send_pulse_bias_witness :
    1 ≤ Main.send_pulse_count 1500 ∧
    Main.send_pulse_count 1500 ≤ 16384 ∧
    Main.send_pulse_iters 1500 = Main.send_pulse_count 1500 ∧
    Main.send_pulse_count 0 = 1 ∧
    Main.send_pulse_iters 0 = 1 ∧
    Main.send_pulse_iters 0 ≤ Main.send_pulse_iters 1500 ∧
    Main.busyIters 0 = 65536 :=
  C9_send_pulse_bias 1500 (by decide)

/-- C7: from Idle, a reading with corrected width exactly +MARGIN transitions to
Forward in that same iteration with duration reset to 0, exactly -MARGIN
transitions to Reverse likewise, and readings strictly inside
(-MARGIN, +MARGIN) leave Idle unchanged. -/
theorem C7_idle_transitions (s : Main.St) (w : Int) (hs : s.state = SState.INI) :
    (Main.corrected s w = Main.MARGIN →
      (Main.stateSwitch s (Main.corrected s w)).state = SState.FWD ∧
      (Main.stateSwitch s (Main.corrected s w)).duration = 0 ∧
      (Main.step s w).1.state = SState.FWD) ∧
    (Main.corrected s w = -Main.MARGIN →
      (Main.stateSwitch s (Main.corrected s w)).state = SState.REV ∧
      (Main.stateSwitch s (Main.corrected s w)).duration = 0 ∧
      (Main.step s w).1.state = SState.REV) ∧
    (-Main.MARGIN < Main.corrected s w → Main.corrected s w < Main.MARGIN →
      (Main.stateSwitch s (Main.corrected s w)).state = SState.INI ∧
      (Main.stateSwitch s (Main.corrected s w)).duration = s.duration ∧
      (Main.step s w).1.state = SState.INI) := by
  have hsw := mainSwitch_INI s (Main.corrected s w) hs
  refine ⟨fun hlen => ?_, fun hlen => ?_, fun hlo hhi => ?_⟩
  · have hcond : Main.MARGIN ≤ Main.corrected s w := le_of_eq hlen.symm
    rw [main_step_state, hsw, if_pos hcond]
    exact ⟨rfl, rfl, rfl⟩
  · have h1 : ¬ Main.MARGIN ≤ Main.corrected s w := by
      rw [hlen]
      norm_num [Main.MARGIN]
    have h2 : Main.corrected s w ≤ -Main.MARGIN := le_of_eq hlen
    rw [main_step_state, hsw, if_neg h1, if_pos h2]
    exact ⟨rfl, rfl, rfl⟩
  · have h1 : ¬ Main.MARGIN ≤ Main.corrected s w := by
      simp only [Main.MARGIN] at hhi ⊢
      omega
    have h2 : ¬ Main.corrected s w ≤ -Main.MARGIN := by
      simp only [Main.MARGIN] at hlo ⊢
      omega
    rw [main_step_state, hsw, if_neg h1, if_neg h2]
    exact ⟨hs, rfl, hs⟩

/-- Witness for C7: from Idle with zero offset, raw width 1540 gives corrected
width exactly +MARGIN = 40 and transitions to Forward. -/
theorem C7_idle_transitions_witness :
    (Main.corrected { state := SState.INI, duration := 7, nobst := 0, offset := 0, led := false } 1540 = Main.MARGIN →
      (Main.stateSwitch { state := SState.INI, duration := 7, nobst := 0, offset := 0, led := false }
        (Main.corrected { state := SState.INI, duration := 7, nobst := 0, offset := 0, led := false } 1540)).state = SState.FWD ∧
      (Main.stateSwitch { state := SState.INI, duration := 7, nobst := 0, offset := 0, led := false }
        (Main.corrected { state := SState.INI, duration := 7, nobst := 0, offset := 0, led := false } 1540)).duration = 0 ∧
      (Main.step { state := SState.INI, duration := 7, nobst := 0, offset := 0, led := false } 1540).1.state = SState.FWD) ∧
    (Main.corrected { state := SState.INI, duration := 7, nobst := 0, offset := 0, led := false } 1540 = -Main.MARGIN →
      (Main.stateSwitch { state := SState.INI, duration := 7, nobst := 0, offset := 0, led := false }
        (Main.corrected { state := SState.INI, duration := 7, nobst := 0, offset := 0, led := false } 1540)).state = SState.REV ∧
      (Main.stateSwitch { state := SState.INI, duration := 7, nobst := 0, offset := 0, led := false }
        (Main.corrected { state := SState.INI, duration := 7, nobst := 0, offset := 0, led := false } 1540)).duration = 0 ∧
      (Main.step { state := SState.INI, duration := 7, nobst := 0, offset := 0, led := false } 1540).1.state = SState.REV) ∧
    (-Main.MARGIN < Main.corrected { state := SState.INI, duration := 7, nobst := 0, offset := 0, led := false } 1540 →
      Main.corrected { state := SState.INI, duration := 7, nobst := 0, offset := 0, led := false } 1540 < Main.MARGIN →
      (Main.stateSwitch { state := SState.INI, duration := 7, nobst := 0, offset := 0, led := false }
        (Main.corrected { state := SState.INI, duration := 7, nobst := 0, offset := 0, led := false } 1540)).state = SState.INI ∧
      (Main.stateSwitch { state := SState.INI, duration := 7, nobst := 0, offset := 0, led := false }
        (Main.corrected { state := SState.INI, duration := 7, nobst := 0, offset := 0, led := false } 1540)).duration = 7 ∧
      (Main.step { state := SState.INI, duration := 7, nobst := 0, offset := 0, led := false } 1540).1.state = SState.INI) :=
  C7_idle_transitions { state := SState.INI, duration := 7, nobst := 0, offset := 0, led := false } 1540 rfl

lemma lpSwitch_CTR (s : Lp.St) (len : Int) (hs : s.state = SState.CTR) :
    Lp.stateSwitch s len =
      if len < -1500 ∨ len > 1500 then
        { s with duration := wrap16 (s.duration - 1) }
      else
        let off := if 10 ≤ s.duration then
            (if len < 0 then wrap16 (s.offset - len) else wrap16 (s.offset + len))
          else s.offset
        if 20 ≤ s.duration then
          { s with offset := off.tdiv 10, state := SState.INI, duration := 0 }
        else
          { s with offset := off } := by
  obtain ⟨st, d, nb, off⟩ := s
  obtain rfl : st = SState.CTR := hs
  rfl

lemma lpScale_REV (s : Lp.St) (len : Int) (hs : s.state = SState.REV) :
    Lp.scaleSwitch s len =
      ({ s with
          nobst := (if wrap16 (s.nobst - 1) < 0 then 0 else wrap16 (s.nobst - 1)) },
       (wrap16 (len * 2)).tdiv 4) := by
  obtain ⟨st, d, nb, off⟩ := s
  obtain rfl : st = SState.REV := hs
  rfl

lemma lpScale_other (s : Lp.St) (len : Int)
    (hs : s.state = SState.CTR ∨ s.state = SState.INI ∨ s.state = SState.STP ∨
      s.state = SState.BRK) :
    Lp.scaleSwitch s len =
      ({ s with
          nobst := (if wrap16 (s.nobst - 1) < 0 then 0 else wrap16 (s.nobst - 1)) },
       len) := by
  obtain ⟨st, d, nb, off⟩ := s
  rcases hs with h | h | h | h <;> (obtain rfl := h) <;> rfl

lemma lpScale_state (s : Lp.St) (len : Int) :
    (Lp.scaleSwitch s len).1.state = s.state := by
  obtain ⟨st, d, nb, off⟩ := s
  cases st <;> simp only [Lp.scaleSwitch] <;> first | rfl | (split_ifs <;> rfl)

lemma lpScale_duration (s : Lp.St) (len : Int) :
    (Lp.scaleSwitch s len).1.duration = s.duration := by
  obtain ⟨st, d, nb, off⟩ := s
  cases st <;> simp only [Lp.scaleSwitch] <;> first | rfl | (split_ifs <;> rfl)

lemma lpScale_offset (s : Lp.St) (len : Int) :
    (Lp.scaleSwitch s len).1.offset = s.offset := by
  obtain ⟨st, d, nb, off⟩ := s
  cases st <;> simp only [Lp.scaleSwitch] <;> first | rfl | (split_ifs <;> rfl)

lemma lp_step_state (s : Lp.St) (w : Int) :
    (Lp.step s w).1.state = (Lp.stateSwitch s (Lp.corrected s w)).state := by
  simp only [Lp.step]
  rw [lpScale_state]

lemma lp_step_offset (s : Lp.St) (w : Int) :
    (Lp.step s w).1.offset = (Lp.stateSwitch s (Lp.corrected s w)).offset := by
  simp only [Lp.step]
  rw [lpScale_offset]

/-- C3: while the state is Centering, an iteration whose centered reading lies
outside the ±1500 µs capture window decrements StateDuration in the state
switch and otherwise does nothing that iteration: the calibration offset is
not accumulated and the state does not change.  Stated for the sketch
variant (whose window constant is ±1500) and for the AVR variant (whose
window is ±500, so a reading outside ±1500 takes the same branch there). -/
theorem C3_centering_window (s : Lp.St) (w : Int) (hs : s.state = SState.CTR)
    (hout : Lp.corrected s w < -1500 ∨ Lp.corrected s w > 1500)
    (t : Main.St) (v : Int) (ht : t.state = SState.CTR)
    (hvout : Main.corrected t v < -1500 ∨ Main.corrected t v > 1500) :
    (Lp.stateSwitch s (Lp.corrected s w)).duration = wrap16 (s.duration - 1) ∧
    (Lp.stateSwitch s (Lp.corrected s w)).offset = s.offset ∧
    (Lp.stateSwitch s (Lp.corrected s w)).state = SState.CTR ∧
    (Lp.step s w).1.offset = s.offset ∧
    (Lp.step s w).1.state = SState.CTR ∧
    (Main.stateSwitch t (Main.corrected t v)).duration = (t.duration + 255) % 256 ∧
    (Main.stateSwitch t (Main.corrected t v)).offset = t.offset ∧
    (Main.stateSwitch t (Main.corrected t v)).state = SState.CTR ∧
    (Main.step t v).1.offset = t.offset ∧
    (Main.step t v).1.state = SState.CTR := by
  have hsw := lpSwitch_CTR s (Lp.corrected s w) hs
  have htw := mainSwitch_CTR t (Main.corrected t v) ht
  rw [lp_step_offset, lp_step_state, main_step_offset, main_step_state, hsw, htw,
    if_pos hout, if_pos (by omega : Main.corrected t v < -500 ∨ Main.corrected t v > 500)]
  exact ⟨rfl, rfl, hs, rfl, hs, rfl, rfl, ht, rfl, ht⟩

/-- Witness for C3: both variants at boot, fed a raw width of 3100 µs, whose
centered reading is 1600 µs, outside the window. -/
theorem C3_centering_window_witness :
    (Lp.stateSwitch Lp.boot (Lp.corrected Lp.boot 3100)).duration = wrap16 (Lp.boot.duration - 1) ∧
    (Lp.stateSwitch Lp.boot (Lp.corrected Lp.boot 3100)).offset = Lp.boot.offset ∧
    (Lp.stateSwitch Lp.boot (Lp.corrected Lp.boot 3100)).state = SState.CTR ∧
    (Lp.step Lp.boot 3100).1.offset = Lp.boot.offset ∧
    (Lp.step Lp.boot 3100).1.state = SState.CTR ∧
    (Main.stateSwitch Main.boot (Main.corrected Main.boot 3100)).duration = (Main.boot.duration + 255) % 256 ∧
    (Main.stateSwitch Main.boot (Main.corrected Main.boot 3100)).offset = Main.boot.offset ∧
    (Main.stateSwitch Main.boot (Main.corrected Main.boot 3100)).state = SState.CTR ∧
    (Main.step Main.boot 3100).1.offset = Main.boot.offset ∧
    (Main.step Main.boot 3100).1.state = SState.CTR :=
  C3_centering_window Lp.boot 3100 rfl (by decide) Main.boot 3100 rfl (by decide)

lemma main_step_snd (s : Main.St) (w : Int) :
    (Main.step s w).2 =
      wrap16 ((Main.scaleSwitch { Main.stateSwitch s (Main.corrected s w) with led := false }
        (Main.corrected s w)).2 + 1500) := rfl

/-- C8: width scaling happens only in Forward and Reverse.  In Reverse the
corrected width is multiplied by 2/3 (AVR variant) or by 2/4 = 1/2 (sketch
variant) and the burst counter is decremented, clamped at zero; in Idle,
Stopped and Braking the corrected width passes through unscaled (the emitted
width is just the corrected width re-centered by +1500) and the burst
counter is decremented, clamped at zero. -/
theorem C8_scaling_policy :
    (∀ (s : Main.St) (len : Int), s.state = SState.REV →
      0 ≤ s.nobst → s.nobst ≤ 2 * Main.MAXBURST →
      (Main.scaleSwitch s len).2 = (wrap16 (len * 2)).tdiv 3 ∧
      (Main.scaleSwitch s len).1.nobst = max (s.nobst - 1) 0) ∧
    (∀ (s : Lp.St) (len : Int), s.state = SState.REV →
      0 ≤ s.nobst → s.nobst ≤ 2 * Lp.MAXBURST →
      (Lp.scaleSwitch s len).2 = (wrap16 (len * 2)).tdiv 4 ∧
      (Lp.scaleSwitch s len).1.nobst = max (s.nobst - 1) 0) ∧
    (∀ (s : Main.St) (len : Int),
      s.state = SState.INI ∨ s.state = SState.STP ∨ s.state = SState.BRK →
      0 ≤ s.nobst → s.nobst ≤ 2 * Main.MAXBURST →
      (Main.scaleSwitch s len).2 = len ∧
      (Main.scaleSwitch s len).1.nobst = max (s.nobst - 1) 0) ∧
    (∀ (s : Lp.St) (len : Int),
      s.state = SState.INI ∨ s.state = SState.STP ∨ s.state = SState.BRK →
      0 ≤ s.nobst → s.nobst ≤ 2 * Lp.MAXBURST →
      (Lp.scaleSwitch s len).2 = len ∧
      (Lp.scaleSwitch s len).1.nobst = max (s.nobst - 1) 0) ∧
    (∀ (s : Main.St) (w : Int),
      ((Main.stateSwitch s (Main.corrected s w)).state = SState.INI ∨
        (Main.stateSwitch s (Main.corrected s w)).state = SState.STP ∨
        (Main.stateSwitch s (Main.corrected s w)).state = SState.BRK) →
      (Main.step s w).2 = wrap16 (Main.corrected s w + 1500)) := by
  refine ⟨fun s len hs h0 h1 => ?_, fun s len hs h0 h1 => ?_,
    fun s len hs h0 h1 => ?_, fun s len hs h0 h1 => ?_, fun s w hs => ?_⟩
  · rw [mainScale_REV s len hs]
    refine ⟨rfl, ?_⟩
    show (if wrap8 (s.nobst - 1) < 0 then 0 else wrap8 (s.nobst - 1)) = max (s.nobst - 1) 0
    rw [wrap8_eq_self (s.nobst - 1) (by simp [Main.MAXBURST] at h1 ⊢; omega) (by simp [Main.MAXBURST] at h1 ⊢; omega)]
    split_ifs <;> omega
  · rw [lpScale_REV s len hs]
    refine ⟨rfl, ?_⟩
    show (if wrap16 (s.nobst - 1) < 0 then 0 else wrap16 (s.nobst - 1)) = max (s.nobst - 1) 0
    rw [wrap16_eq_self (s.nobst - 1) (by simp [Lp.MAXBURST] at h1 ⊢; omega) (by simp [Lp.MAXBURST] at h1 ⊢; omega)]
    split_ifs <;> omega
  · rw [mainScale_other s len hs]
    refine ⟨rfl, ?_⟩
    show (if wrap8 (s.nobst - 1) < 0 then 0 else wrap8 (s.nobst - 1)) = max (s.nobst - 1) 0
    rw [wrap8_eq_self (s.nobst - 1) (by simp [Main.MAXBURST] at h1 ⊢; omega) (by simp [Main.MAXBURST] at h1 ⊢; omega)]
    split_ifs <;> omega
  · rw [lpScale_other s len (Or.inr hs)]
    refine ⟨rfl, ?_⟩
    show (if wrap16 (s.nobst - 1) < 0 then 0 else wrap16 (s.nobst - 1)) = max (s.nobst - 1) 0
    rw [wrap16_eq_self (s.nobst - 1) (by simp [Lp.MAXBURST] at h1 ⊢; omega) (by simp [Lp.MAXBURST] at h1 ⊢; omega)]
    split_ifs <;> omega
  · rw [main_step_snd,
      mainScale_other { Main.stateSwitch s (Main.corrected s w) with led := false }
        (Main.corrected s w) (by simpa using hs)]

/-- Witness for C8: Reverse at corrected width -300 in both variants
(scaled to -200 and -150 respectively), Stopped at -300 passing through
unscaled, and an Idle step of the AVR variant at raw width 1500 emitting
the re-centered corrected width. -/
theorem C8_scaling_policy_witness :
    ((Main.scaleSwitch { state := SState.REV, duration := 3, nobst := 5, offset := 0, led := false } (-300)).2 =
        (wrap16 ((-300) * 2)).tdiv 3 ∧
      (Main.scaleSwitch { state := SState.REV, duration := 3, nobst := 5, offset := 0, led := false } (-300)).1.nobst =
        max ((5 : Int) - 1) 0) ∧
    ((Lp.scaleSwitch { state := SState.REV, duration := 3, nobst := 5, offset := 0 } (-300)).2 =
        (wrap16 ((-300) * 2)).tdiv 4 ∧
      (Lp.scaleSwitch { state := SState.REV, duration := 3, nobst := 5, offset := 0 } (-300)).1.nobst =
        max ((5 : Int) - 1) 0) ∧
    ((Main.scaleSwitch { state := SState.STP, duration := 3, nobst := 0, offset := 0, led := false } (-300)).2 = -300 ∧
      (Main.scaleSwitch { state := SState.STP, duration := 3, nobst := 0, offset := 0, led := false } (-300)).1.nobst =
        max ((0 : Int) - 1) 0) ∧
    ((Lp.scaleSwitch { state := SState.STP, duration := 3, nobst := 0, offset := 0 } (-300)).2 = -300 ∧
      (Lp.scaleSwitch { state := SState.STP, duration := 3, nobst := 0, offset := 0 } (-300)).1.nobst =
        max ((0 : Int) - 1) 0) ∧
    ((Main.step { state := SState.INI, duration := 3, nobst := 0, offset := 7, led := false } 1500).2 =
      wrap16 (Main.corrected { state := SState.INI, duration := 3, nobst := 0, offset := 7, led := false } 1500 + 1500)) :=
  ⟨C8_scaling_policy.1 _ (-300) rfl (by decide) (by decide),
   C8_scaling_policy.2.1 _ (-300) rfl (by decide) (by decide),
   C8_scaling_policy.2.2.1 _ (-300) (Or.inr (Or.inl rfl)) (by decide) (by decide),
   C8_scaling_policy.2.2.2.1 _ (-300) (Or.inr (Or.inl rfl)) (by decide) (by decide),
   C8_scaling_policy.2.2.2.2 _ 1500 (by decide)⟩

set_option maxRecDepth 16384 in
/-- C2 counterexample: from the boot state, 20 consecutive plausible readings
of raw width 1530 µs (centered deviation +30) leave the machine still in
Centering with the accumulator at 300, not in Idle with offset 30: the
transition only fires on the 21st reading (the duration check runs before
the end-of-iteration increment, so `duration ≥ 20` is first seen on
iteration 21). -/
theorem C2_twenty_readings_counterexample :
    (Main.run Main.boot (List.replicate 20 1530)).state = SState.CTR ∧
    (Main.run Main.boot (List.replicate 20 1530)).offset = 300 ∧
    (Main.run Main.boot (List.replicate 20 1530)).duration = 20 := by
  decide

set_option maxRecDepth 16384 in
/-- C2 amended: from the boot state, 21 consecutive plausible readings of raw
width 1530 µs (constant centered deviation +30) complete calibration: the
accumulator collects eleven samples of 30 (iterations 11 through 21) and is
divided by 10, yielding CalibrationOffset = 33; the state transitions to
Idle; StateDuration is reset to zero at the transition and then the
end-of-iteration increment leaves it at 1. -/
theorem C2_calibration_amended :
    (Main.run Main.boot (List.replicate 21 1530)).state = SState.INI ∧
    (Main.run Main.boot (List.replicate 21 1530)).offset = 33 ∧
    (Main.run Main.boot (List.replicate 21 1530)).duration = 1 := by
  decide

set_option maxRecDepth 16384 in
/-- C5 counterexample: with calibration completed at offset 0 and the burst
counter at 0, sustained Forward at raw width 2000 µs (corrected width 500,
above FWDFULL) emits the scaled output 1700 already on Forward iteration
MAXBURST = 15 (the counter is incremented before the comparison, so the
15th increment reaches MAXBURST and locks), not on iteration MAXBURST + 1
as claimed. -/
theorem C5_burst_counterexample :
    (Main.run Main.boot (List.replicate 21 1500)).state = SState.INI ∧
    (Main.run Main.boot (List.replicate 21 1500)).nobst = 0 ∧
    (Main.outs (Main.run Main.boot (List.replicate 21 1500))
      (List.replicate 20 2000)).get? 14 = some 1700 := by
  decide

set_option maxRecDepth 16384 in
/-- C5 amended: in the same scenario the first MAXBURST - 1 = 14 Forward
iterations pass through unscaled (output 2000 µs) and every iteration from
the 15th (= MAXBURST) onward is scaled by 2/5 (output 1700 µs), even though
the corrected width stays above FWDFULL throughout. -/
theorem C5_burst_amended :
    (Main.run Main.boot (List.replicate 21 1500)).state = SState.INI ∧
    (Main.run Main.boot (List.replicate 21 1500)).nobst = 0 ∧
    Main.outs (Main.run Main.boot (List.replicate 21 1500)) (List.replicate 20 2000) =
      List.replicate 14 2000 ++ List.replicate 6 1700 := by
  decide

/-- C6 counterexample: `duration` is an unsigned 8-bit counter and the
Centering decrement on an implausible reading wraps: one implausible
reading (raw width 3100 µs) taken at boot, where duration = 0, leaves
duration at 255 after the iteration (the wrap produces 255 and the
end-of-iteration saturating increment then does not fire), whereas
saturating arithmetic would leave it at 0 or 1. -/
theorem C6_duration_wrap_counterexample :
    Main.boot.duration = 0 ∧
    Main.boot.state = SState.CTR ∧
    (Main.step Main.boot 3100).1.duration = 255 := by
  decide

lemma mainSwitch_duration_le (s : Main.St) (len : Int) (h : s.duration ≤ 255) :
    (Main.stateSwitch s len).duration ≤ 255 := by
  obtain ⟨st, d, nb, off, ld⟩ := s
  cases st <;> simp only [Main.stateSwitch] <;> split_ifs <;> simp_all <;> omega

/-- C6 amended: StateDuration (an 8-bit unsigned counter) always stays within
[0, 255]; the end-of-iteration increment saturates at 255; but the Centering
decrement applied on implausible readings uses wrapping 8-bit arithmetic,
not saturation: from duration 0 the iteration ends with duration 255
(wraparound), while from any duration ≥ 1 the decrement followed by the
end-of-iteration increment leaves the duration unchanged. -/
theorem C6_duration_amended (s : Main.St) (w : Int) (h : s.duration ≤ 255) :
    (Main.step s w).1.duration ≤ 255 ∧
    (s.state = SState.CTR →
      (Main.corrected s w < -500 ∨ Main.corrected s w > 500) →
      (Main.step s w).1.duration = if s.duration = 0 then 255 else s.duration) := by
  constructor
  · rw [main_step_duration]
    have := mainSwitch_duration_le s (Main.corrected s w) h
    split_ifs <;> omega
  · intro hs hout
    rw [main_step_duration, mainSwitch_CTR s (Main.corrected s w) hs, if_pos hout]
    show (if (s.duration + 255) % 256 < 255 then (s.duration + 255) % 256 + 1
          else (s.duration + 255) % 256) = if s.duration = 0 then 255 else s.duration
    split_ifs <;> omega

/-- Witness for C6 amended: at the boot state with an implausible raw width
of 3100 µs, the iteration wraps duration from 0 to 255. -/
theorem C6_duration_amended_witness :
    (Main.step Main.boot 3100).1.duration ≤ 255 ∧
    (Main.boot.state = SState.CTR →
      (Main.corrected Main.boot 3100 < -500 ∨ Main.corrected Main.boot 3100 > 500) →
      (Main.step Main.boot 3100).1.duration = if Main.boot.duration = 0 then 255 else Main.boot.duration) :=
  C6_duration_amended Main.boot 3100 (by decide)

set_option maxRecDepth 16384 in
/-- C4 counterexample: a reachable Forward state whose duration is already 5
(left Centering after 21 neutral readings, entered Forward on a 1540 µs
reading and stayed there for four more) transitions to Stopped on the very
first in-band reading (raw width 1500, corrected width 0), not after 4
consecutive in-band readings: the debounce compares the time spent in the
state, not a count of consecutive in-band readings. -/
theorem C4_debounce_counterexample :
    (Main.run Main.boot (List.replicate 21 1500 ++ List.replicate 5 1540)).state = SState.FWD ∧
    (Main.run Main.boot (List.replicate 21 1500 ++ List.replicate 5 1540)).duration = 5 ∧
    (-Main.MARGIN <
        Main.corrected (Main.run Main.boot (List.replicate 21 1500 ++ List.replicate 5 1540)) 1500 ∧
      Main.corrected (Main.run Main.boot (List.replicate 21 1500 ++ List.replicate 5 1540)) 1500 <
        Main.MARGIN) ∧
    (Main.run Main.boot ((List.replicate 21 1500 ++ List.replicate 5 1540) ++ [1500])).state =
      SState.STP := by
  decide

lemma main_fwd_inband_lt (s : Main.St) (w : Int) (hs : s.state = SState.FWD)
    (hlo : -Main.MARGIN < Main.corrected s w) (hhi : Main.corrected s w < Main.MARGIN)
    (hd : s.duration < 4) :
    (Main.step s w).1.state = SState.FWD ∧
    (Main.step s w).1.duration = s.duration + 1 ∧
    (Main.step s w).1.offset = s.offset ∧
    Main.corrected (Main.step s w).1 w = Main.corrected s w := by
  have hsw := mainSwitch_FWD s (Main.corrected s w) hs
  have hn1 : ¬ Main.corrected s w ≤ -Main.MARGIN := by
    simp only [Main.MARGIN] at hlo ⊢
    omega
  have hband : -Main.MARGIN < Main.corrected s w ∧ Main.corrected s w < Main.MARGIN :=
    ⟨hlo, hhi⟩
  have hn4 : ¬ 4 ≤ s.duration := by omega
  have e1 : (Main.step s w).1.state = SState.FWD := by
    rw [main_step_state, hsw, if_neg hn1, if_pos hband, if_neg hn4, hs]
  have e2 : (Main.step s w).1.duration = s.duration + 1 := by
    rw [main_step_duration, hsw, if_neg hn1, if_pos hband, if_neg hn4,
      if_pos (by omega : s.duration < 255)]
  have e3 : (Main.step s w).1.offset = s.offset := by
    rw [main_step_offset, hsw, if_neg hn1, if_pos hband, if_neg hn4]
  have hx : ¬ (Main.step s w).1.state = SState.CTR := by
    rw [e1]
    exact (by decide : SState.FWD ≠ SState.CTR)
  have hy : ¬ s.state = SState.CTR := by
    rw [hs]
    exact (by decide : SState.FWD ≠ SState.CTR)
  refine ⟨e1, e2, e3, ?_⟩
  simp only [Main.corrected, if_neg hx, if_neg hy, e3]

lemma main_fwd_inband_ge (s : Main.St) (w : Int) (hs : s.state = SState.FWD)
    (hlo : -Main.MARGIN < Main.corrected s w) (hhi : Main.corrected s w < Main.MARGIN)
    (hd : 4 ≤ s.duration) :
    (Main.step s w).1.state = SState.STP ∧ (Main.step s w).1.duration = 1 := by
  have hsw := mainSwitch_FWD s (Main.corrected s w) hs
  have hn1 : ¬ Main.corrected s w ≤ -Main.MARGIN := by
    simp only [Main.MARGIN] at hlo ⊢
    omega
  have hband : -Main.MARGIN < Main.corrected s w ∧ Main.corrected s w < Main.MARGIN :=
    ⟨hlo, hhi⟩
  constructor
  · rw [main_step_state, hsw, if_neg hn1, if_pos hband, if_pos hd]
  · rw [main_step_duration, hsw, if_neg hn1, if_pos hband, if_pos hd]
    norm_num

lemma main_revbrk_inband_lt (s : Main.St) (w : Int)
    (hs : s.state = SState.REV ∨ s.state = SState.BRK)
    (hlo : -Main.MARGIN < Main.corrected s w) (hhi : Main.corrected s w < Main.MARGIN)
    (hd : s.duration < 4) :
    (Main.step s w).1.state = s.state ∧ (Main.step s w).1.duration = s.duration + 1 := by
  have hsw : Main.stateSwitch s (Main.corrected s w) =
      if Main.MARGIN ≤ Main.corrected s w then { s with state := SState.FWD, duration := 0 }
      else if -Main.MARGIN < Main.corrected s w ∧ Main.corrected s w < Main.MARGIN then
        if 4 ≤ s.duration then { s with state := SState.INI, duration := 0 } else s
      else s := by
    rcases hs with h | h
    · exact mainSwitch_REV s (Main.corrected s w) h
    · exact mainSwitch_BRK s (Main.corrected s w) h
  have hn1 : ¬ Main.MARGIN ≤ Main.corrected s w := by
    simp only [Main.MARGIN] at hhi ⊢
    omega
  have hband : -Main.MARGIN < Main.corrected s w ∧ Main.corrected s w < Main.MARGIN :=
    ⟨hlo, hhi⟩
  have hn4 : ¬ 4 ≤ s.duration := by omega
  constructor
  · rw [main_step_state, hsw, if_neg hn1, if_pos hband, if_neg hn4]
  · rw [main_step_duration, hsw, if_neg hn1, if_pos hband, if_neg hn4,
      if_pos (by omega : s.duration < 255)]

lemma main_revbrk_inband_ge (s : Main.St) (w : Int)
    (hs : s.state = SState.REV ∨ s.state = SState.BRK)
    (hlo : -Main.MARGIN < Main.corrected s w) (hhi : Main.corrected s w < Main.MARGIN)
    (hd : 4 ≤ s.duration) :
    (Main.step s w).1.state = SState.INI ∧ (Main.step s w).1.duration = 1 := by
  have hsw : Main.stateSwitch s (Main.corrected s w) =
      if Main.MARGIN ≤ Main.corrected s w then { s with state := SState.FWD, duration := 0 }
      else if -Main.MARGIN < Main.corrected s w ∧ Main.corrected s w < Main.MARGIN then
        if 4 ≤ s.duration then { s with state := SState.INI, duration := 0 } else s
      else s := by
    rcases hs with h | h
    · exact mainSwitch_REV s (Main.corrected s w) h
    · exact mainSwitch_BRK s (Main.corrected s w) h
  have hn1 : ¬ Main.MARGIN ≤ Main.corrected s w := by
    simp only [Main.MARGIN] at hhi ⊢
    omega
  have hband : -Main.MARGIN < Main.corrected s w ∧ Main.corrected s w < Main.MARGIN :=
    ⟨hlo, hhi⟩
  constructor
  · rw [main_step_state, hsw, if_neg hn1, if_pos hband, if_pos hd]
  · rw [main_step_duration, hsw, if_neg hn1, if_pos hband, if_pos hd]
    norm_num

/-- C4 amended: in Forward, Reverse and Braking an in-band reading (corrected
width strictly inside (-MARGIN, +MARGIN)) causes no transition while the
state duration is still below DEBOUNCE = 4, and causes the return transition
(Forward to Stopped; Reverse or Braking to Idle) on the first in-band
reading once the duration has reached 4 — the duration counts all
iterations spent in the state, not just in-band readings.  Consequently,
from a fresh entry (duration 1 at the start of the next iteration), exactly
4 consecutive in-band readings make Forward transition to Stopped, on the
fourth and not before. -/
theorem C4_debounce_amended :
    (∀ (s : Main.St) (w : Int), s.state = SState.FWD →
      -Main.MARGIN < Main.corrected s w → Main.corrected s w < Main.MARGIN →
      (s.duration < 4 →
        (Main.step s w).1.state = SState.FWD ∧
        (Main.step s w).1.duration = s.duration + 1) ∧
      (4 ≤ s.duration →
        (Main.step s w).1.state = SState.STP ∧ (Main.step s w).1.duration = 1)) ∧
    (∀ (s : Main.St) (w : Int), s.state = SState.REV ∨ s.state = SState.BRK →
      -Main.MARGIN < Main.corrected s w → Main.corrected s w < Main.MARGIN →
      (s.duration < 4 →
        (Main.step s w).1.state = s.state ∧
        (Main.step s w).1.duration = s.duration + 1) ∧
      (4 ≤ s.duration →
        (Main.step s w).1.state = SState.INI ∧ (Main.step s w).1.duration = 1)) ∧
    (∀ (s : Main.St) (w : Int), s.state = SState.FWD → s.duration = 1 →
      -Main.MARGIN < Main.corrected s w → Main.corrected s w < Main.MARGIN →
      (Main.run s [w, w, w]).state = SState.FWD ∧
      (Main.run s [w, w, w]).duration = 4 ∧
      (Main.run s [w, w, w, w]).state = SState.STP ∧
      (Main.run s [w, w, w, w]).duration = 1) := by
  refine ⟨fun s w hs hlo hhi => ⟨fun hd => ?_, fun hd => ?_⟩,
    fun s w hs hlo hhi => ⟨fun hd => ?_, fun hd => ?_⟩,
    fun s w hs hd1 hlo hhi => ?_⟩
  · obtain ⟨e1, e2, _, _⟩ := main_fwd_inband_lt s w hs hlo hhi hd
    exact ⟨e1, e2⟩
  · exact main_fwd_inband_ge s w hs hlo hhi hd
  · exact main_revbrk_inband_lt s w hs hlo hhi hd
  · exact main_revbrk_inband_ge s w hs hlo hhi hd
  · obtain ⟨a1, a2, a3, a4⟩ := main_fwd_inband_lt s w hs hlo hhi (by omega)
    obtain ⟨b1, b2, b3, b4⟩ := main_fwd_inband_lt _ w a1
      (by rw [a4]; exact hlo) (by rw [a4]; exact hhi) (by omega)
    obtain ⟨c1, c2, c3, c4⟩ := main_fwd_inband_lt _ w b1
      (by rw [b4, a4]; exact hlo) (by rw [b4, a4]; exact hhi) (by omega)
    obtain ⟨d1, d2⟩ := main_fwd_inband_ge _ w c1
      (by rw [c4, b4, a4]; exact hlo) (by rw [c4, b4, a4]; exact hhi) (by omega)
    refine ⟨?_, ?_, ?_, ?_⟩ <;> simp only [Main.run, List.foldl]
    · exact c1
    · omega
    · exact d1
    · exact d2

/-- Witness for C4 amended: a fresh Forward state (duration 1) with offset 0,
fed the neutral raw width 1500 (corrected width 0, in-band) four times:
still Forward after three readings, Stopped after the fourth. -/
theorem C4_debounce_amended_witness :
    (Main.run { state := SState.FWD, duration := 1, nobst := 1, offset := 0, led := true }
      [1500, 1500, 1500]).state = SState.FWD ∧
    (Main.run { state := SState.FWD, duration := 1, nobst := 1, offset := 0, led := true }
      [1500, 1500, 1500]).duration = 4 ∧
    (Main.run { state := SState.FWD, duration := 1, nobst := 1, offset := 0, led := true }
      [1500, 1500, 1500, 1500]).state = SState.STP ∧
    (Main.run { state := SState.FWD, duration := 1, nobst := 1, offset := 0, led := true }
      [1500, 1500, 1500, 1500]).duration = 1 :=
  C4_debounce_amended.2.2 _ 1500 rfl rfl (by decide) (by decide)

lemma mainSwitch_nobst (s : Main.St) (len : Int) :
    (Main.stateSwitch s len).nobst = s.nobst := by
  obtain ⟨st, d, nb, off, ld⟩ := s
  cases st <;> simp only [Main.stateSwitch] <;> split_ifs <;> rfl

lemma mainScale_nobst_bounds (t : Main.St) (len : Int) (h0 : 0 ≤ t.nobst)
    (h1 : t.nobst ≤ 2 * Main.MAXBURST) :
    0 ≤ (Main.scaleSwitch t len).1.nobst ∧
    (Main.scaleSwitch t len).1.nobst ≤ 2 * Main.MAXBURST := by
  obtain ⟨st, d, nb, off, ld⟩ := t
  simp only [Main.MAXBURST] at h1 ⊢
  cases st <;>
    simp only [Main.scaleSwitch, wrap8, Main.MAXBURST, Main.FWDFULL] <;>
    (try dsimp only at h0 h1 ⊢) <;> (try split_ifs) <;> (try dsimp only) <;>
    constructor <;> omega

lemma main_step_nobst_bounds (s : Main.St) (w : Int) (h0 : 0 ≤ s.nobst)
    (h1 : s.nobst ≤ 2 * Main.MAXBURST) :
    0 ≤ (Main.step s w).1.nobst ∧ (Main.step s w).1.nobst ≤ 2 * Main.MAXBURST := by
  have hnb : ({ Main.stateSwitch s (Main.corrected s w) with led := false } : Main.St).nobst
      = s.nobst := mainSwitch_nobst s (Main.corrected s w)
  have hb := mainScale_nobst_bounds
    { Main.stateSwitch s (Main.corrected s w) with led := false }
    (Main.corrected s w) (by rw [hnb]; exact h0) (by rw [hnb]; exact h1)
  have he : (Main.step s w).1.nobst =
      (Main.scaleSwitch { Main.stateSwitch s (Main.corrected s w) with led := false }
        (Main.corrected s w)).1.nobst := rfl
  rw [he]
  exact hb

lemma main_run_nobst_bounds (ws : List Int) (s : Main.St) (h0 : 0 ≤ s.nobst)
    (h1 : s.nobst ≤ 2 * Main.MAXBURST) :
    0 ≤ (Main.run s ws).nobst ∧ (Main.run s ws).nobst ≤ 2 * Main.MAXBURST := by
  induction ws generalizing s with
  | nil => exact ⟨h0, h1⟩
  | cons w rest ih =>
      have hs := main_step_nobst_bounds s w h0 h1
      exact ih (Main.step s w).1 hs.1 hs.2

lemma fwdBurst_cases (n : Int) (h0 : 0 ≤ n) (h1 : n ≤ 30) :
    Main.fwdBurst n = 30 ∨ (Main.fwdBurst n = n + 1 ∧ n + 1 ≤ 14) := by
  simp only [Main.fwdBurst, Main.MAXBURST, wrap8]
  split_ifs with h
  · left
    norm_num
  · right
    constructor <;> omega

lemma fwdBurst_tail (k : Nat) (n : Int) (h0 : 0 ≤ n) (h1 : n ≤ 30) :
    Main.fwdBurst^[k + 1] n = 30 ∨
      (Main.fwdBurst^[k + 1] n = n + (k + 1 : Nat) ∧ n + (k + 1 : Nat) ≤ 14) := by
  induction k generalizing n with
  | zero =>
      rcases fwdBurst_cases n h0 h1 with h | ⟨h, hb⟩
      · exact Or.inl (by simpa using h)
      · refine Or.inr ⟨by simpa using h, by push_cast; omega⟩
  | succ m ih =>
      rw [Function.iterate_succ_apply]
      rcases fwdBurst_cases n h0 h1 with h | ⟨h, hb⟩
      · rw [h]
        rcases ih 30 (by norm_num) le_rfl with h2 | ⟨h2, hb2⟩
        · exact Or.inl h2
        · exact absurd hb2 (by push_cast; omega)
      · rw [h]
        rcases ih (n + 1) (by omega) (by omega) with h2 | ⟨h2, hb2⟩
        · exact Or.inl h2
        · refine Or.inr ⟨?_, by push_cast at hb2 ⊢; omega⟩
          rw [h2]
          push_cast
          ring

lemma fwdBurst_lock (n : Int) (k : Nat) (h0 : 0 ≤ n) (h1 : n ≤ 30) (hk : 15 ≤ k) :
    Main.fwdBurst^[k] n = 30 := by
  obtain ⟨m, rfl⟩ : ∃ m, k = m + 1 := ⟨k - 1, by omega⟩
  rcases fwdBurst_tail m n h0 h1 with h | ⟨h, hb⟩
  · exact h
  · exact absurd hb (by push_cast; omega)

lemma main_fwd_nobst_eq (s : Main.St) (len : Int) (hs : s.state = SState.FWD) :
    (Main.scaleSwitch s len).1.nobst = Main.fwdBurst s.nobst := by
  rw [mainScale_FWD s len hs]
  split_ifs <;> rfl

lemma main_fwd_locked_scaled (s : Main.St) (len : Int) (hs : s.state = SState.FWD)
    (h0 : Main.MAXBURST ≤ s.nobst) (h1 : s.nobst ≤ 2 * Main.MAXBURST) :
    (Main.scaleSwitch s len).2 = (wrap16 (len * 2)).tdiv 5 ∧
    Main.MAXBURST ≤ (Main.scaleSwitch s len).1.nobst := by
  rw [mainScale_FWD s len hs]
  simp only [Main.MAXBURST, Main.FWDFULL] at h0 h1 ⊢
  have hfb : Main.fwdBurst s.nobst = 2 * Main.MAXBURST := by
    unfold Main.fwdBurst
    rw [wrap8_eq_self (s.nobst + 1) (by omega) (by omega),
      if_pos (by simp only [Main.MAXBURST]; omega)]
  rw [hfb]
  rw [if_pos (Or.inr (by simp only [Main.MAXBURST]; norm_num))]
  exact ⟨rfl, by simp only [Main.MAXBURST]; norm_num⟩

lemma main_nonfwd_nobst_dec (s : Main.St) (len : Int)
    (hs : s.state = SState.INI ∨ s.state = SState.STP ∨ s.state = SState.BRK ∨
      s.state = SState.REV)
    (h0 : 0 ≤ s.nobst) (h1 : s.nobst ≤ 2 * Main.MAXBURST) :
    (Main.scaleSwitch s len).1.nobst = max (s.nobst - 1) 0 := by
  simp only [Main.MAXBURST] at h1
  have hw : wrap8 (s.nobst - 1) = s.nobst - 1 :=
    wrap8_eq_self _ (by omega) (by omega)
  rcases hs with h | h | h | h
  · rw [mainScale_other s len (Or.inl h)]
    show (if wrap8 (s.nobst - 1) < 0 then 0 else wrap8 (s.nobst - 1)) = max (s.nobst - 1) 0
    rw [hw]
    split_ifs <;> omega
  · rw [mainScale_other s len (Or.inr (Or.inl h))]
    show (if wrap8 (s.nobst - 1) < 0 then 0 else wrap8 (s.nobst - 1)) = max (s.nobst - 1) 0
    rw [hw]
    split_ifs <;> omega
  · rw [mainScale_other s len (Or.inr (Or.inr h))]
    show (if wrap8 (s.nobst - 1) < 0 then 0 else wrap8 (s.nobst - 1)) = max (s.nobst - 1) 0
    rw [hw]
    split_ifs <;> omega
  · rw [mainScale_REV s len h]
    show (if wrap8 (s.nobst - 1) < 0 then 0 else wrap8 (s.nobst - 1)) = max (s.nobst - 1) 0
    rw [hw]
    split_ifs <;> omega

/-- C1: the burst counter stays within [0, 2·MAXBURST] at the end of every
control-loop iteration from boot; the Forward arm updates it exactly by
`fwdBurst` (increment, locking at 2·MAXBURST once MAXBURST is reached), so
any MAXBURST (or more) consecutive Forward iterations drive it to the lock
value 2·MAXBURST; while the counter is at or above MAXBURST a Forward
iteration always scales the corrected width by 2/5 — the full-throttle
bypass is disabled whatever the width — and leaves the counter at or above
MAXBURST; driving the counter back down happens only through non-Forward
driving iterations (Idle, Stopped, Braking, Reverse), each of which
decrements it by one, clamped at zero. -/
theorem C1_burst_counter :
    (∀ ws : List Int, 0 ≤ (Main.run Main.boot ws).nobst ∧
      (Main.run Main.boot ws).nobst ≤ 2 * Main.MAXBURST) ∧
    (∀ (s : Main.St) (len : Int), s.state = SState.FWD →
      (Main.scaleSwitch s len).1.nobst = Main.fwdBurst s.nobst) ∧
    (∀ (n : Int) (k : Nat), 0 ≤ n → n ≤ 2 * Main.MAXBURST → Main.MAXBURST.toNat ≤ k →
      Main.fwdBurst^[k] n = 2 * Main.MAXBURST) ∧
    (∀ (s : Main.St) (len : Int), s.state = SState.FWD →
      Main.MAXBURST ≤ s.nobst → s.nobst ≤ 2 * Main.MAXBURST →
      (Main.scaleSwitch s len).2 = (wrap16 (len * 2)).tdiv 5 ∧
      Main.MAXBURST ≤ (Main.scaleSwitch s len).1.nobst) ∧
    (∀ (s : Main.St) (len : Int),
      s.state = SState.INI ∨ s.state = SState.STP ∨ s.state = SState.BRK ∨
        s.state = SState.REV →
      0 ≤ s.nobst → s.nobst ≤ 2 * Main.MAXBURST →
      (Main.scaleSwitch s len).1.nobst = max (s.nobst - 1) 0) := by
  refine ⟨fun ws => ?_, main_fwd_nobst_eq, fun n k h0 h1 hk => ?_,
    main_fwd_locked_scaled, main_nonfwd_nobst_dec⟩
  · exact main_run_nobst_bounds ws Main.boot (by decide) (by decide)
  · have := fwdBurst_lock n k h0 (by simpa [Main.MAXBURST] using h1)
      (by simpa [Main.MAXBURST, Int.toNat] using hk)
    simpa [Main.MAXBURST] using this

/-- Witness for C1: the invariant after the run [2000, 2000], the Forward
counter update from 0, the lock after exactly 15 Forward iterations from 0,
the forced scaling at a locked counter with width 500 above FWDFULL, and
the clamped decrement in Stopped. -/
theorem C1_burst_counter_witness :
    (0 ≤ (Main.run Main.boot [2000, 2000]).nobst ∧
      (Main.run Main.boot [2000, 2000]).nobst ≤ 2 * Main.MAXBURST) ∧
    (Main.scaleSwitch { state := SState.FWD, duration := 2, nobst := 0, offset := 0, led := false } 500).1.nobst =
      Main.fwdBurst 0 ∧
    Main.fwdBurst^[15] 0 = 2 * Main.MAXBURST ∧
    ((Main.scaleSwitch { state := SState.FWD, duration := 9, nobst := 30, offset := 0, led := false } 500).2 =
        (wrap16 (500 * 2)).tdiv 5 ∧
      Main.MAXBURST ≤ (Main.scaleSwitch { state := SState.FWD, duration := 9, nobst := 30, offset := 0, led := false } 500).1.nobst) ∧
    (Main.scaleSwitch { state := SState.STP, duration := 9, nobst := 5, offset := 0, led := false } 0).1.nobst =
      max ((5 : Int) - 1) 0 :=
  ⟨C1_burst_counter.1 [2000, 2000],
   C1_burst_counter.2.1 _ 500 rfl,
   C1_burst_counter.2.2.1 0 15 (by decide) (by decide) (by decide),
   C1_burst_counter.2.2.2.1 _ 500 rfl (by decide) (by decide),
   C1_burst_counter.2.2.2.2 _ 0 (Or.inr (Or.inl rfl)) (by decide) (by decide)⟩

lemma main_offset_inv_step (s : Main.St) (w : Int)
    (h0 : 0 ≤ s.offset) (h1 : s.offset ≤ 5500) (hd : s.duration ≤ 255)
    (hc : s.state = SState.CTR →
      s.offset ≤ (if s.duration ≤ 9 then 0
        else if s.duration ≤ 20 then 500 * ((s.duration : Int) - 10) else 5000)) :
    0 ≤ (Main.step s w).1.offset ∧ (Main.step s w).1.offset ≤ 5500 ∧
    (Main.step s w).1.duration ≤ 255 ∧
    ((Main.step s w).1.state = SState.CTR →
      (Main.step s w).1.offset ≤ (if (Main.step s w).1.duration ≤ 9 then 0
        else if (Main.step s w).1.duration ≤ 20 then
          500 * (((Main.step s w).1.duration : Int) - 10)
        else 5000)) := by
  rcases h : s.state with _ | _ | _ | _ | _ | _
  case CTR =>
    rw [main_step_offset, main_step_state, main_step_duration,
      mainSwitch_CTR s (Main.corrected s w) h]
    have hcap := hc h
    by_cases himp : Main.corrected s w < -500 ∨ Main.corrected s w > 500
    · rw [if_pos himp]
      refine ⟨h0, h1, by dsimp only; split_ifs <;> omega, fun hx => ?_⟩
      dsimp only at hx ⊢
      split_ifs at hcap ⊢ <;> omega
    · rw [if_neg himp]
      push_neg at himp
      obtain ⟨hl1, hl2⟩ := himp
      have hoffb : 0 ≤ (if 10 ≤ s.duration then
            (if Main.corrected s w < 0 then wrap16 (s.offset - Main.corrected s w)
             else wrap16 (s.offset + Main.corrected s w))
          else s.offset) ∧
          (if 10 ≤ s.duration then
            (if Main.corrected s w < 0 then wrap16 (s.offset - Main.corrected s w)
             else wrap16 (s.offset + Main.corrected s w))
          else s.offset) ≤ s.offset + 500 := by
        split_ifs <;> (try simp only [wrap16]) <;> omega
      by_cases htr : 20 ≤ s.duration
      · rw [if_pos htr]
        have hdv := Int.tdiv_eq_ediv hoffb.1 (by norm_num : (0 : Int) ≤ 10)
        refine ⟨?_, ?_, by dsimp only; split_ifs <;> omega, fun hx => ?_⟩
        · dsimp only
          rw [hdv]
          omega
        · dsimp only
          rw [hdv]
          omega
        · dsimp only at hx
          exact absurd hx (by decide)
      · rw [if_neg htr]
        have hdnot : ¬ 20 ≤ s.duration := htr
        refine ⟨hoffb.1, ?_, by dsimp only; split_ifs <;> omega, fun hx => ?_⟩
        · dsimp only
          split_ifs at hcap ⊢ <;> omega
        · dsimp only at hx ⊢
          split_ifs at hcap ⊢ <;> omega
  case INI =>
    rw [main_step_offset, main_step_state, main_step_duration,
      mainSwitch_INI s (Main.corrected s w) h]
    split_ifs <;> refine ⟨h0, h1, by (try dsimp only); omega, fun hx => ?_⟩ <;>
      (try rw [h] at hx) <;> exact absurd hx (by decide)
  case FWD =>
    rw [main_step_offset, main_step_state, main_step_duration,
      mainSwitch_FWD s (Main.corrected s w) h]
    split_ifs <;> refine ⟨h0, h1, by (try dsimp only); omega, fun hx => ?_⟩ <;>
      (try rw [h] at hx) <;> exact absurd hx (by decide)
  case STP =>
    rw [main_step_offset, main_step_state, main_step_duration,
      mainSwitch_STP s (Main.corrected s w) h]
    split_ifs <;> refine ⟨h0, h1, by (try dsimp only); omega, fun hx => ?_⟩ <;>
      (try rw [h] at hx) <;> exact absurd hx (by decide)
  case BRK =>
    rw [main_step_offset, main_step_state, main_step_duration,
      mainSwitch_BRK s (Main.corrected s w) h]
    split_ifs <;> refine ⟨h0, h1, by (try dsimp only); omega, fun hx => ?_⟩ <;>
      (try rw [h] at hx) <;> exact absurd hx (by decide)
  case REV =>
    rw [main_step_offset, main_step_state, main_step_duration,
      mainSwitch_REV s (Main.corrected s w) h]
    split_ifs <;> refine ⟨h0, h1, by (try dsimp only); omega, fun hx => ?_⟩ <;>
      (try rw [h] at hx) <;> exact absurd hx (by decide)

lemma main_run_offset_inv (ws : List Int) (s : Main.St)
    (h0 : 0 ≤ s.offset) (h1 : s.offset ≤ 5500) (hd : s.duration ≤ 255)
    (hc : s.state = SState.CTR →
      s.offset ≤ (if s.duration ≤ 9 then 0
        else if s.duration ≤ 20 then 500 * ((s.duration : Int) - 10) else 5000)) :
    0 ≤ (Main.run s ws).offset := by
  induction ws generalizing s with
  | nil => exact h0
  | cons w rest ih =>
      obtain ⟨a, b, c, d2⟩ := main_offset_inv_step s w h0 h1 hd hc
      exact ih (Main.step s w).1 a b c d2

lemma mainSwitch_offset_nonCTR (s : Main.St) (len : Int) (hs : s.state ≠ SState.CTR) :
    (Main.stateSwitch s len).offset = s.offset := by
  rcases h : s.state with _ | _ | _ | _ | _ | _
  · exact absurd h hs
  · rw [mainSwitch_INI s len h]
    split_ifs <;> rfl
  · rw [mainSwitch_REV s len h]
    split_ifs <;> rfl
  · rw [mainSwitch_FWD s len h]
    split_ifs <;> rfl
  · rw [mainSwitch_STP s len h]
    split_ifs <;> rfl
  · rw [mainSwitch_BRK s len h]
    split_ifs <;> rfl

/-- C10: the calibration offset is non-negative at the end of every iteration
of every run from boot (the Centering accumulation adds the absolute value
of each plausible deviation and the final division by 10 preserves the
sign); once the state has left Centering the offset is frozen (never
written again); and for any plausible pulse (raw width between 0 and
3000 µs) the post-calibration correction adds the non-negative offset, so
the corrected width is never below the merely centered width. -/
theorem C10_offset_nonneg :
    (∀ ws : List Int, 0 ≤ (Main.run Main.boot ws).offset) ∧
    (∀ (s : Main.St) (w : Int), s.state ≠ SState.CTR →
      (Main.step s w).1.offset = s.offset) ∧
    (∀ (s : Main.St) (w : Int), s.state ≠ SState.CTR →
      0 ≤ s.offset → s.offset ≤ 5500 → 0 ≤ w → w ≤ 3000 →
      Main.corrected s w = wrap16 (wrap16 w - 1500) + s.offset ∧
      wrap16 (wrap16 w - 1500) ≤ Main.corrected s w) := by
  refine ⟨fun ws => ?_, fun s w hs => ?_, fun s w hs ho1 ho2 hw1 hw2 => ?_⟩
  · exact main_run_offset_inv ws Main.boot (by decide) (by decide) (by decide)
      (fun _ => by decide)
  · rw [main_step_offset]
    exact mainSwitch_offset_nonCTR s (Main.corrected s w) hs
  · have e1 : wrap16 w = w := wrap16_eq_self w (by omega) (by omega)
    have e2 : wrap16 (w - 1500) = w - 1500 := wrap16_eq_self _ (by omega) (by omega)
    have e3 : wrap16 (w - 1500 + s.offset) = w - 1500 + s.offset :=
      wrap16_eq_self _ (by omega) (by omega)
    have hcor : Main.corrected s w = wrap16 (wrap16 (wrap16 w - 1500) + s.offset) := by
      simp only [Main.corrected, if_neg hs]
    rw [hcor, e1, e2, e3]
    exact ⟨rfl, by omega⟩

/-- Witness for C10: the frozen offset and the upward correction at an Idle
state with offset 33 and raw width 1600 µs (corrected width 133 versus the
centered 100), plus the run-level invariant after two readings. -/
theorem C10_offset_nonneg_witness :
    0 ≤ (Main.run Main.boot [1530, 1530]).offset ∧
    (Main.step { state := SState.INI, duration := 4, nobst := 0, offset := 33, led := false } 1600).1.offset = 33 ∧
    (Main.corrected { state := SState.INI, duration := 4, nobst := 0, offset := 33, led := false } 1600 =
        wrap16 (wrap16 1600 - 1500) + 33 ∧
      wrap16 (wrap16 1600 - 1500) ≤
        Main.corrected { state := SState.INI, duration := 4, nobst := 0, offset := 33, led := false } 1600) :=
  ⟨C10_offset_nonneg.1 [1530, 1530],
   C10_offset_nonneg.2.1 _ 1600 (by decide),
   C10_offset_nonneg.2.2 _ 1600 (by decide) (by decide) (by decide) (by decide) (by decide)⟩

end Servoscale
